import Mathlib

/-!
Verification of the baserow-erd-viewer data reconciliation, cascading-filter
and graph-derivation logic.  The definitions below are a shallow embedding of
the TypeScript source: `frontend/app/page.tsx` (entity normalization and
filtering), the ERD diagram component (graph derivation, relationship
filtering, workspace extraction) and the per-application ERD page (flow edge
construction).  JavaScript numbers holding entity ids are modelled as `Int`;
select-element values are `String`; `Number(...)` applied to a selection
string is modelled by `jsToNumber` (with `none` playing the role of `NaN`).
-/

namespace Erd

/-- Parse a run of decimal digits, accumulating into `acc`; any non-digit
character makes the whole parse fail (JS `Number` yields `NaN`). -/
def parseNatCore : List Char → Nat → Option Nat
  | [], acc => some acc
  | c :: cs, acc => if c.isDigit then parseNatCore cs (acc * 10 + (c.toNat - 48)) else none

/-- Model of the JS `Number(s)` coercion on selection strings: `none` models
`NaN`; the empty string coerces to `0` as in JS. -/
def jsToNumber (s : String) : Option Int :=
  match s.data with
  | [] => some 0
  | c :: cs =>
    if c = '-' then
      if cs.isEmpty then none else (parseNatCore cs 0).map (fun n => -(n : Int))
    else
      (parseNatCore (c :: cs) 0).map (fun n => (n : Int))

/-- Model of the JS strict equality `Number(s) === n` between a coerced
selection string and a numeric entity id (`NaN === n` is `false`). -/
def numEq (s : String) (n : Int) : Bool :=
  match jsToNumber s with
  | some m => m == n
  | none => false

/-- Model of `x || dflt` on an optional string: JS treats the empty string
and `undefined` as falsy. -/
def jsOr (o : Option String) (dflt : String) : String :=
  match o with
  | some s => if s = "" then dflt else s
  | none => dflt

/-- Model of `array.map((x, index) => f index x)`. -/
def mapWithIndex (f : Nat → α → β) : Nat → List α → List β
  | _, [] => []
  | i, a :: as => f i a :: mapWithIndex f (i + 1) as

/-- Model of `Set.add` on a JS `Set` of numbers (insertion order preserved,
duplicates dropped). -/
def insertUnique (l : List Int) (x : Int) : List Int :=
  if l.contains x then l else l ++ [x]

/-- Insertion step of the lexicographic-by-key sort modelling
`array.sort((a, b) => a.name.localeCompare(b.name))`. -/
def insBy (key : α → String) (x : α) : List α → List α
  | [] => [x]
  | y :: ys => if key x ≤ key y then x :: y :: ys else y :: insBy key x ys

/-- Sort a list by a string key (models `sort` with a `localeCompare`
comparator; only the resulting ordering discipline matters here). -/
def sortByKey (key : α → String) (l : List α) : List α :=
  l.foldr (insBy key) []

/-- Substring test on character lists, modelling `String.includes`. -/
def containsSub : List Char → List Char → Bool
  | [], sub => sub.isEmpty
  | c :: cs, sub => sub.isPrefixOf (c :: cs) || containsSub cs sub

/-- Model of `s.includes(sub)` on strings. -/
def strContains (s sub : String) : Bool :=
  containsSub s.data sub.data

/-- Model of `s.toLowerCase()`: lower-case every character (structurally,
so that concrete evaluation reduces). -/
def lowerStr (s : String) : String :=
  String.mk (s.data.map Char.toLower)

/-! ## Data model (the inbound payload shape of `page.tsx`) -/

/-- A field of a table, as delivered by the backend payload. -/
structure TField where
  id : Int
  name : String
  type : String
  link_row_table_id : Option Int
deriving DecidableEq

/-- A table record of the payload. -/
structure Table where
  id : Int
  name : String
  database_id : Int
  database_name : String
  workspace_id : Int
  workspace_name : String
  fields : List TField
deriving DecidableEq

/-- A relationship record of the payload. -/
structure Rel where
  source_table_id : Int
  source_table_name : String
  target_table_id : Int
  target_table_name : String
  field_id : Int
  field_name : String
deriving DecidableEq

/-- An entry of the optional explicit `databases` list of the payload. -/
structure PayloadDb where
  id : Int
  name : String
  workspace_id : Int
  workspace_name : String
  has_tables : Option Bool
  table_count : Option Int
deriving DecidableEq

/-- An entry of the optional explicit `workspaces` list of the payload. -/
structure PayloadWs where
  id : Int
  name : String
deriving DecidableEq

/-- The full inbound payload (`ERDData` in the source). -/
structure ERDData where
  tables : List Table
  relationships : List Rel
  databases : Option (List PayloadDb)
  workspaces : Option (List PayloadWs)
deriving DecidableEq

/-- A normalized database entry as produced by `allDatabases`. -/
structure DbEntry where
  id : Int
  name : String
  workspace_id : Int
  workspace_name : String
  tableCount : Int
  hasTables : Bool
deriving DecidableEq

/-- A normalized workspace entry as produced by `allWorkspaces`. -/
structure WsEntry where
  id : Int
  name : String
  databaseCount : Nat
  tableCount : Nat
deriving DecidableEq

/-! ## Entity normalizer (`page.tsx`) -/

/-- `erdData.tables.filter(t => Number(t.database_id) === dbId).length`. -/
def countTablesForDb (tables : List Table) (dbId : Int) : Nat :=
  (tables.filter (fun t => t.database_id == dbId)).length

/-- The unique truthy `database_id` values of the tables, in first-seen order
(`page.tsx` guards the `Set.add` with `if (table.database_id)`). -/
def uniqueDbIds (tables : List Table) : List Int :=
  tables.foldl (fun acc t => if t.database_id != 0 then insertUnique acc t.database_id else acc) []

/-- The unique truthy `workspace_id` values of the tables, in first-seen
order. -/
def uniqueWsIds (tables : List Table) : List Int :=
  tables.foldl (fun acc t => if t.workspace_id != 0 then insertUnique acc t.workspace_id else acc) []

/-- One derived database entry of the `page.tsx` fallback path: sample the
first table with the given `database_id` for name and workspace reference. -/
def mkDbEntry (tables : List Table) (dbId : Int) : DbEntry :=
  let sample := tables.find? (fun t => t.database_id == dbId)
  let cnt := countTablesForDb tables dbId
  { id := dbId
    name := jsOr (sample.map (fun t => t.database_name)) ("Database " ++ toString dbId)
    workspace_id := match sample with | some t => t.workspace_id | none => 0
    workspace_name := jsOr (sample.map (fun t => t.workspace_name)) "Unknown Workspace"
    tableCount := (cnt : Int)
    hasTables := cnt > 0 }

/-- The derive-from-tables fallback of `allDatabases` (`page.tsx` lines
124-153), including the empty-tables early return and the final name sort. -/
def dbFromTables (p : ERDData) : List DbEntry :=
  if p.tables.isEmpty then []
  else sortByKey (fun d => d.name) ((uniqueDbIds p.tables).map (mkDbEntry p.tables))

/-- One entry of the explicit-databases path of `allDatabases`: the payload
record is copied, and `table_count` / `has_tables` are taken from the payload
when supplied, recomputed from the tables only when absent. -/
def mkExplicitDbEntry (tables : List Table) (db : PayloadDb) : DbEntry :=
  let tc : Int := match db.table_count with
    | some c => c
    | none => (countTablesForDb tables db.id : Int)
  { id := db.id
    name := db.name
    workspace_id := db.workspace_id
    workspace_name := db.workspace_name
    tableCount := tc
    hasTables := match db.has_tables with | some h => h | none => tc > 0 }

/-- `allDatabases` (`page.tsx` lines 102-153): use the explicit payload
`databases` list when present and non-empty, otherwise derive from the
tables. -/
def allDatabases (p : ERDData) : List DbEntry :=
  match p.databases with
  | some dbs =>
    if dbs.length > 0 then dbs.map (mkExplicitDbEntry p.tables)
    else dbFromTables p
  | none => dbFromTables p

/-- One derived workspace entry of the `page.tsx` fallback path. -/
def mkWsEntry (tables : List Table) (wsId : Int) : WsEntry :=
  let sample := tables.find? (fun t => t.workspace_id == wsId)
  { id := wsId
    name := jsOr (sample.map (fun t => t.workspace_name)) ("Workspace " ++ toString wsId)
    databaseCount :=
      (tables.foldl
        (fun acc t =>
          if t.workspace_id == wsId && t.database_id != 0 then insertUnique acc t.database_id
          else acc) []).length
    tableCount := (tables.filter (fun t => t.workspace_id == wsId)).length }

/-- The derive-from-tables fallback of `allWorkspaces` (`page.tsx` lines
174-209). -/
def wsFromTables (p : ERDData) : List WsEntry :=
  if p.tables.isEmpty then []
  else sortByKey (fun w => w.name) ((uniqueWsIds p.tables).map (mkWsEntry p.tables))

/-- `allWorkspaces` (`page.tsx` lines 156-210). -/
def allWorkspaces (p : ERDData) : List WsEntry :=
  match p.workspaces with
  | some wss =>
    if wss.length > 0 then
      wss.map (fun ws =>
        { id := ws.id
          name := ws.name
          databaseCount := ((allDatabases p).filter (fun db => db.workspace_id == ws.id)).length
          tableCount := (p.tables.filter (fun t => t.workspace_id == ws.id)).length })
    else wsFromTables p
  | none => wsFromTables p

/-! ## Cascading filter state and derivations -/

/-- The two select-element values held by the page component. -/
structure FilterState where
  selectedWorkspace : String
  selectedDatabase : String
deriving DecidableEq

/-- The initial selection state `('all', 'all')`. -/
def initialFilterState : FilterState :=
  { selectedWorkspace := "all", selectedDatabase := "all" }

/-- `handleWorkspaceChange` (`page.tsx` lines 295-298 and the diagram
component): set the workspace and reset the database selection to `all`. -/
def handleWorkspaceChange (s : FilterState) (w : String) : FilterState :=
  { s with selectedWorkspace := w, selectedDatabase := "all" }

/-- `handleDatabaseChange`: set the database selection only. -/
def handleDatabaseChange (s : FilterState) (d : String) : FilterState :=
  { s with selectedDatabase := d }

/-- The `disabled` condition of the database select element:
`selectedWorkspace === 'all'`. -/
def dbSelectorDisabled (s : FilterState) : Bool :=
  s.selectedWorkspace == "all"

/-- `filteredDatabases` (`page.tsx` lines 213-231): all databases when the
workspace selection is `all`, otherwise those whose `workspace_id` strictly
equals `Number(selectedWorkspace)`. -/
def filteredDatabases (dbs : List DbEntry) (selW : String) : List DbEntry :=
  if dbs.length = 0 then []
  else if selW = "all" then dbs
  else dbs.filter (fun db => numEq selW db.workspace_id)

/-- `filteredTables` (`page.tsx` lines 234-277): narrow by workspace first,
then by database; each comparison is `Number(selection) === Number(id)`. -/
def filteredTables (tables : List Table) (selW selD : String) : List Table :=
  let f1 := if selW = "all" then tables else tables.filter (fun t => numEq selW t.workspace_id)
  if selD = "all" then f1 else f1.filter (fun t => numEq selD t.database_id)

/-- `databasesWithCorrectCounts` (`page.tsx` lines 280-293): recompute each
entry's `tableCount` against the full table list. -/
def databasesWithCorrectCounts (tables : List Table) (fdbs : List DbEntry) : List DbEntry :=
  fdbs.map (fun db =>
    let c := countTablesForDb tables db.id
    { db with tableCount := (c : Int), hasTables := c > 0 })

/-- `filteredRelationships` (diagram component lines 346-351): keep a
relationship only when both endpoint ids occur among the filtered tables. -/
def filteredRelationships (rels : List Rel) (ftables : List Table) : List Rel :=
  rels.filter (fun r =>
    ftables.any (fun t => t.id == r.source_table_id) &&
    ftables.any (fun t => t.id == r.target_table_id))

/-! ## Graph deriver (diagram component, list page) -/

/-- A field as emitted inside a diagram node, with the key-classification
flags added. -/
structure NodeField where
  id : Int
  name : String
  type : String
  link_row_table_id : Option Int
  isPrimary : Bool
  isForeign : Bool
deriving DecidableEq

/-- A renderable diagram node (`initialNodes` entry). -/
structure NodeOut where
  id : String
  posX : Nat
  posY : Nat
  label : String
  fields : List NodeField
deriving DecidableEq

/-- A renderable diagram edge. -/
structure EdgeOut where
  id : String
  source : String
  target : String
  label : String
deriving DecidableEq

/-- Field classification of the diagram component: `isPrimary` when the
lower-cased field name includes `id` and equals the lower-cased table name
followed by `_id`; `isForeign` when the type is `link_row` or a
`link_row_table_id` is present. -/
def mkNodeField (tableName : String) (f : TField) : NodeField :=
  { id := f.id
    name := f.name
    type := f.type
    link_row_table_id := f.link_row_table_id
    isPrimary := strContains (lowerStr f.name) "id" && lowerStr f.name == lowerStr tableName ++ "_id"
    isForeign := f.type == "link_row" || f.link_row_table_id.isSome }

/-- One diagram node: grid position `column = index mod 3`,
`row = index / 3`, spacing 300 x 400 with offset 50. -/
def mkNode (i : Nat) (t : Table) : NodeOut :=
  { id := toString t.id
    posX := (i % 3) * 300 + 50
    posY := (i / 3) * 400 + 50
    label := t.name
    fields := t.fields.map (mkNodeField t.name) }

/-- `initialNodes` of the diagram component (lines 355-376). -/
def initialNodes (tables : List Table) : List NodeOut :=
  mapWithIndex mkNode 0 tables

/-- `initialEdges` of the diagram component (lines 378-387); the standalone
diagram module builds its `edges` with the same shape. -/
def initialEdges (rels : List Rel) : List EdgeOut :=
  mapWithIndex
    (fun i r =>
      { id := "e" ++ toString i
        source := toString r.source_table_id
        target := toString r.target_table_id
        label := r.field_name })
    0 rels

/-- The relationship pruning of the per-application ERD page: keep only
relationships with both endpoint tables in the selected application. -/
def flowEdgesKept (rels : List Rel) (appTables : List Table) : List Rel :=
  rels.filter (fun r =>
    appTables.any (fun t => t.id == r.source_table_id) &&
    appTables.any (fun t => t.id == r.target_table_id))

/-- `flowEdges` of the per-application ERD page (lines 73-88): note the
edge id there is `e-` followed by the index, with a dash. -/
def flowEdges (rels : List Rel) (appTables : List Table) : List EdgeOut :=
  mapWithIndex
    (fun i r =>
      { id := "e-" ++ toString i
        source := toString r.source_table_id
        target := toString r.target_table_id
        label := r.field_name })
    0 (flowEdgesKept rels appTables)

/-- A workspace option entry of the diagram component's own extraction. -/
structure DiagWs where
  id : Int
  name : String
deriving DecidableEq

/-- Model of `Map.set` on a JS `Map` keyed by workspace id: overwrite the
value in place when the key exists, else append. -/
def upsertWs (l : List DiagWs) (w : DiagWs) : List DiagWs :=
  if l.any (fun e => e.id == w.id) then l.map (fun e => if e.id == w.id then w else e)
  else l ++ [w]

/-- The diagram component's `workspaces` memo (lines 193-203): every table
writes its workspace name into the map, so the last table with a given
workspace id wins; the result is sorted by name. -/
def diagramWorkspaces (tables : List Table) : List DiagWs :=
  sortByKey (fun w => w.name)
    (tables.foldl (fun acc t => upsertWs acc { id := t.workspace_id, name := t.workspace_name }) [])

/-! ## Spec-side comparison definitions -/

/-- Spec wording for C5: the distinct values of a list, one representative
per value. -/
def distinctVals (l : List Int) : List Int :=
  l.foldl insertUnique []

/-- Spec wording for C6: the database name taken from the first table with
the given database id, defaulting to `Database ` followed by the id. -/
def firstDbName (tables : List Table) (dbId : Int) : String :=
  match tables.find? (fun t => t.database_id == dbId) with
  | some t => if t.database_name = "" then "Database " ++ toString dbId else t.database_name
  | none => "Database " ++ toString dbId

/-- Spec wording for C6: the workspace reference taken from the first table
with the given database id. -/
def firstDbWorkspaceId (tables : List Table) (dbId : Int) : Int :=
  match tables.find? (fun t => t.database_id == dbId) with
  | some t => t.workspace_id
  | none => 0

/-- Spec wording for C6: the workspace name taken from the first table with
the given workspace id, defaulting to `Workspace ` followed by the id. -/
def firstWsName (tables : List Table) (wsId : Int) : String :=
  match tables.find? (fun t => t.workspace_id == wsId) with
  | some t => if t.workspace_name = "" then "Workspace " ++ toString wsId else t.workspace_name
  | none => "Workspace " ++ toString wsId

/-- Spec wording for C6 (last-seen variant): the workspace name carried by
the last table with the given workspace id. -/
def lastWsName (tables : List Table) (wsId : Int) : String :=
  match tables.reverse.find? (fun t => t.workspace_id == wsId) with
  | some t => t.workspace_name
  | none => ""

/-- The names of a list of normalized database entries, in order. -/
def namesOf (l : List DbEntry) : List String :=
  l.map (fun d => d.name)

/-- The names of a list of payload database records, in order. -/
def payloadNamesOf (l : List PayloadDb) : List String :=
  l.map (fun d => d.name)

/-- The `database_id` values carried by a list of tables, in order. -/
def dbIdsOf (tables : List Table) : List Int :=
  tables.map (fun t => t.database_id)

/-- The tables whose `database_id` is truthy in the JS sense (non-zero). -/
def truthyDbTables (tables : List Table) : List Table :=
  tables.filter (fun t => t.database_id != 0)

/-- The `tableCount` values of a list of normalized database entries. -/
def tableCountsOf (l : List DbEntry) : List Int :=
  l.map (fun d => d.tableCount)

/-! ## Generic lemmas about the helper combinators -/

theorem length_insBy (key : α → String) (x : α) (l : List α) :
    (insBy key x l).length = l.length + 1 := by
  induction l with
  | nil => rfl
  | cons y ys ih =>
    by_cases h : key x ≤ key y
    · simp [insBy, h]
    · simp [insBy, h, ih]

theorem mem_insBy (key : α → String) (x z : α) (l : List α) :
    z ∈ insBy key x l ↔ z = x ∨ z ∈ l := by
  induction l with
  | nil => simp [insBy]
  | cons y ys ih =>
    by_cases h : key x ≤ key y
    · simp [insBy, h]
    · simp only [insBy, if_neg h, List.mem_cons, ih]
      tauto

theorem length_sortByKey (key : α → String) (l : List α) :
    (sortByKey key l).length = l.length := by
  induction l with
  | nil => rfl
  | cons y ys ih =>
    simp only [sortByKey, List.foldr_cons] at *
    rw [length_insBy, ih, List.length_cons]

theorem mem_sortByKey (key : α → String) (z : α) (l : List α) :
    z ∈ sortByKey key l ↔ z ∈ l := by
  induction l with
  | nil => simp [sortByKey]
  | cons y ys ih =>
    simp only [sortByKey, List.foldr_cons] at *
    rw [mem_insBy, ih, List.mem_cons]

theorem length_mapWithIndex (f : Nat → α → β) (i0 : Nat) (l : List α) :
    (mapWithIndex f i0 l).length = l.length := by
  induction l generalizing i0 with
  | nil => rfl
  | cons a as ih => simp [mapWithIndex, ih]

theorem get?_mapWithIndex (f : Nat → α → β) (i0 i : Nat) (l : List α) :
    (mapWithIndex f i0 l).get? i = (l.get? i).map (fun a => f (i0 + i) a) := by
  induction l generalizing i0 i with
  | nil => simp [mapWithIndex]
  | cons a as ih =>
    cases i with
    | zero => simp [mapWithIndex]
    | succ j =>
      simp only [mapWithIndex, List.get?_cons_succ]
      rw [ih]
      have harith : i0 + 1 + j = i0 + (j + 1) := by omega
      rw [harith]

theorem mem_mapWithIndex (f : Nat → α → β) (i0 : Nat) (l : List α) (b : β) :
    b ∈ mapWithIndex f i0 l → ∃ n a, a ∈ l ∧ b = f n a := by
  induction l generalizing i0 with
  | nil => simp [mapWithIndex]
  | cons x xs ih =>
    intro hb
    simp only [mapWithIndex, List.mem_cons] at hb
    rcases hb with hb | hb
    · exact ⟨i0, x, List.mem_cons_self x xs, hb⟩
    · rcases ih (i0 + 1) hb with ⟨n, a, ha, hba⟩
      exact ⟨n, a, List.mem_cons_of_mem x ha, hba⟩

theorem numEq_true_iff (s : String) (n : Int) :
    numEq s n = true ↔ jsToNumber s = some n := by
  unfold numEq
  cases h : jsToNumber s <;> simp [h]

theorem jsToNumber_all : jsToNumber "all" = none := by decide

theorem foldl_insertUnique_dbIds (tables : List Table) :
    ∀ acc : List Int,
      tables.foldl
          (fun acc t => if t.database_id != 0 then insertUnique acc t.database_id else acc) acc
        = (dbIdsOf (truthyDbTables tables)).foldl insertUnique acc := by
  induction tables with
  | nil => intro acc; rfl
  | cons t ts ih =>
    intro acc
    by_cases h : (t.database_id != 0) = true
    · simp only [List.foldl_cons, h, if_true, dbIdsOf, truthyDbTables, List.filter_cons,
        List.map_cons]
      exact ih (insertUnique acc t.database_id)
    · have h2 : (t.database_id != 0) = false := by
        revert h; cases t.database_id != 0 <;> simp
      simp only [List.foldl_cons, h2, Bool.false_eq_true, if_false, dbIdsOf, truthyDbTables,
        List.filter_cons, List.map_cons]
      exact ih acc

theorem mem_foldl_upsertWs (tables : List Table) (w : DiagWs) :
    w ∈ tables.foldl
        (fun acc t => upsertWs acc { id := t.workspace_id, name := t.workspace_name }) [] →
    ∃ t, tables.reverse.find? (fun tb => tb.workspace_id == w.id) = some t ∧
      w.id = t.workspace_id ∧ w.name = t.workspace_name := by
  induction tables using List.reverseRecOn with
  | nil => simp
  | append_singleton l t0 ih =>
    intro hm
    rw [List.foldl_append, List.foldl_cons, List.foldl_nil] at hm
    rw [List.reverse_append, List.reverse_singleton, List.singleton_append]
    set A := l.foldl
      (fun acc t => upsertWs acc { id := t.workspace_id, name := t.workspace_name }) [] with hA
    unfold upsertWs at hm
    by_cases hx : A.any (fun e => e.id == t0.workspace_id) = true
    · rw [if_pos hx] at hm
      rcases List.mem_map.mp hm with ⟨e, heA, hew⟩
      by_cases he : (e.id == t0.workspace_id) = true
      · rw [if_pos he] at hew
        subst hew
        exact ⟨t0, List.find?_cons_of_pos _ (by simp), rfl, rfl⟩
      · rw [if_neg he] at hew
        subst hew
        rcases ih heA with ⟨t, hf, hid, hname⟩
        refine ⟨t, ?_, hid, hname⟩
        have hne2 : e.id ≠ t0.workspace_id := by simpa using he
        have hb : (t0.workspace_id == e.id) = false :=
          beq_eq_false_iff_ne.mpr (fun hcontra => hne2 hcontra.symm)
        exact (List.find?_cons_of_neg l.reverse (by simp [hb])).trans hf
    · rw [if_neg hx] at hm
      rcases List.mem_append.mp hm with hmA | hmE
      · have hfalse : A.any (fun e => e.id == t0.workspace_id) = false := by
          revert hx
          cases A.any (fun e => e.id == t0.workspace_id) <;> simp
        rcases ih hmA with ⟨t, hf, hid, hname⟩
        refine ⟨t, ?_, hid, hname⟩
        have hne2 : w.id ≠ t0.workspace_id := by
          simpa using List.any_eq_false.mp hfalse w hmA
        have hb : (t0.workspace_id == w.id) = false :=
          beq_eq_false_iff_ne.mpr (fun hcontra => hne2 hcontra.symm)
        exact (List.find?_cons_of_neg l.reverse (by simp [hb])).trans hf
      · have hw : w = { id := t0.workspace_id, name := t0.workspace_name } := by
          simpa using hmE
        subst hw
        exact ⟨t0, List.find?_cons_of_pos _ (by simp), rfl, rfl⟩

theorem mkDbEntry_name (tables : List Table) (dbId : Int) :
    (mkDbEntry tables dbId).name = firstDbName tables dbId := by
  cases h : tables.find? (fun t => t.database_id == dbId) <;>
    simp [mkDbEntry, firstDbName, jsOr, h]

theorem mkDbEntry_workspace (tables : List Table) (dbId : Int) :
    (mkDbEntry tables dbId).workspace_id = firstDbWorkspaceId tables dbId := by
  cases h : tables.find? (fun t => t.database_id == dbId) <;>
    simp [mkDbEntry, firstDbWorkspaceId, h]

theorem mkDbEntry_id (tables : List Table) (dbId : Int) :
    (mkDbEntry tables dbId).id = dbId := rfl

theorem mkWsEntry_name (tables : List Table) (wsId : Int) :
    (mkWsEntry tables wsId).name = firstWsName tables wsId := by
  cases h : tables.find? (fun t => t.workspace_id == wsId) <;>
    simp [mkWsEntry, firstWsName, jsOr, h]

theorem mkWsEntry_id (tables : List Table) (wsId : Int) :
    (mkWsEntry tables wsId).id = wsId := rfl

theorem mem_databasesWithCorrectCounts (tables : List Table) (fdbs : List DbEntry)
    (e : DbEntry) (he : e ∈ databasesWithCorrectCounts tables fdbs) :
    e.tableCount = (countTablesForDb tables e.id : Int) := by
  rcases List.mem_map.mp he with ⟨db, hdb, heq⟩
  subst heq
  rfl

/-! ## Concrete demonstration data -/

/-- A field named like a conventional primary key of the `Users` table. -/
def usersIdField : TField :=
  { id := 1, name := "users_id", type := "number", link_row_table_id := none }

/-- A demonstration table in database 10 / workspace 100. -/
def tblUsers : Table :=
  { id := 1, name := "Users", database_id := 10, database_name := "DB"
    workspace_id := 100, workspace_name := "WS", fields := [usersIdField] }

/-- A second demonstration table in the same database. -/
def tblOrders : Table :=
  { id := 2, name := "Orders", database_id := 10, database_name := "DB"
    workspace_id := 100, workspace_name := "WS", fields := [] }

/-- A demonstration relationship from `Orders` to `Users`. -/
def relDemo : Rel :=
  { source_table_id := 2, source_table_name := "Orders", target_table_id := 1
    target_table_name := "Users", field_id := 2, field_name := "user_id" }

/-- A demonstration normalized database entry matching `tblUsers`. -/
def dbDemo : DbEntry :=
  { id := 10, name := "DB", workspace_id := 100, workspace_name := "WS"
    tableCount := 2, hasTables := true }

/-! ## Claims -/

/-- C1: for every filter state, the workspace-change handler sets the
workspace selection to the given value and unconditionally resets the
database selection to `all`; in particular after a database change followed
by any workspace change the database selection is `all`. -/
theorem c1_setWorkspace_resets_database (s : FilterState) (w d w2 : String) :
    (handleWorkspaceChange s w).selectedWorkspace = w ∧
    (handleWorkspaceChange s w).selectedDatabase = "all" ∧
    (handleWorkspaceChange (handleDatabaseChange s d) w2).selectedDatabase = "all" :=
  ⟨rfl, rfl, rfl⟩

/-- C2: `filteredRelationships` keeps exactly the relationships whose source
and target table ids both occur among the filtered tables; a relationship
with only one visible endpoint is dropped. -/
theorem c2_filteredRelationships_both_endpoints (rels : List Rel) (tables : List Table)
    (selW selD : String) (r : Rel) :
    r ∈ filteredRelationships rels (filteredTables tables selW selD) ↔
      r ∈ rels ∧
      (∃ t ∈ filteredTables tables selW selD, t.id = r.source_table_id) ∧
      (∃ t ∈ filteredTables tables selW selD, t.id = r.target_table_id) := by
  simp [filteredRelationships, List.mem_filter, Bool.and_eq_true, List.any_eq_true, and_assoc]

/-- C4: the filter derivations compare a selection string and a numeric
entity id by coercing the selection with `Number`; a selection denoting the
number `n` retains exactly the entities whose id equals `n`, in both
`filteredTables` comparisons and the `filteredDatabases` comparison. -/
theorem c4_numeric_normalization (dbs : List DbEntry) (tables : List Table) (selW : String)
    (n : Int) (t t2 : Table) (db : DbEntry) (h : jsToNumber selW = some n) :
    (t ∈ filteredTables tables selW "all" ↔ t ∈ tables ∧ t.workspace_id = n) ∧
    (t2 ∈ filteredTables tables "all" selW ↔ t2 ∈ tables ∧ t2.database_id = n) ∧
    (db ∈ filteredDatabases dbs selW ↔ db ∈ dbs ∧ db.workspace_id = n) := by
  have hsel : selW ≠ "all" := by
    intro hs
    rw [hs, jsToNumber_all] at h
    cases h
  refine ⟨?_, ?_, ?_⟩
  · simp [filteredTables, hsel, numEq_true_iff, h]
    exact fun _ => eq_comm
  · simp [filteredTables, hsel, numEq_true_iff, h]
    exact fun _ => eq_comm
  · by_cases hdlen : dbs.length = 0
    · rw [List.length_eq_zero] at hdlen
      subst hdlen
      simp [filteredDatabases]
    · simp [filteredDatabases, hdlen, hsel, numEq_true_iff, h]
      exact fun _ => eq_comm

/-- C4 witness: the text selection `100` matches exactly the entities whose
numeric id is `100`. -/
theorem c4_witness :
    (tblUsers ∈ filteredTables [tblUsers] "100" "all" ↔
      tblUsers ∈ [tblUsers] ∧ tblUsers.workspace_id = 100) ∧
    (tblUsers ∈ filteredTables [tblUsers] "all" "100" ↔
      tblUsers ∈ [tblUsers] ∧ tblUsers.database_id = 100) ∧
    (dbDemo ∈ filteredDatabases [dbDemo] "100" ↔
      dbDemo ∈ [dbDemo] ∧ dbDemo.workspace_id = 100) :=
  c4_numeric_normalization [dbDemo] [tblUsers] "100" 100 tblUsers tblUsers dbDemo (by decide)

/-- A payload whose explicit `databases` list carries a `table_count` (5)
that disagrees with the live count (0 tables). -/
def explicitDbRecord : PayloadDb :=
  { id := 1, name := "D", workspace_id := 1, workspace_name := "W"
    has_tables := none, table_count := some 5 }

/-- A payload with an explicit databases list and no tables. -/
def payloadExplicitCount : ERDData :=
  { tables := [], relationships := [], databases := some [explicitDbRecord], workspaces := none }

/-- C3 counterexample: with workspace selection `all`, `filteredDatabases`
returns the payload database with `tableCount` 5 (the payload's
`table_count`), while the live count of matching tables is 0 — so the
payload's value is used as the returned `tableCount`, contrary to the
claim. -/
theorem c3_counterexample :
    tableCountsOf (filteredDatabases (allDatabases payloadExplicitCount) "all") = [5] ∧
    countTablesForDb payloadExplicitCount.tables 1 = 0 ∧
    tableCountsOf (filteredDatabases (allDatabases payloadExplicitCount) "all") ≠
      [(countTablesForDb payloadExplicitCount.tables 1 : Int)] :=
  ⟨by decide, by decide, by decide⟩

/-- C3 (amended): with an explicit non-empty `databases` list,
`filteredDatabases` at workspace `all` returns exactly that list (same
cardinality and names); its `tableCount` copies the payload's `table_count`
when supplied (recomputing only when absent), and it is
`databasesWithCorrectCounts` — the list consumed by the database selector —
whose every entry has `tableCount` recomputed as the count of tables whose
`database_id` matches. -/
theorem c3_explicit_databases_names_and_counts (p : ERDData) (l : List PayloadDb) (e : DbEntry)
    (hp : p.databases = some l) (hl : 0 < l.length)
    (he : e ∈ databasesWithCorrectCounts p.tables (filteredDatabases (allDatabases p) "all")) :
    namesOf (filteredDatabases (allDatabases p) "all") = payloadNamesOf l ∧
    (filteredDatabases (allDatabases p) "all").length = l.length ∧
    e.tableCount = (countTablesForDb p.tables e.id : Int) := by
  have hAD : allDatabases p = l.map (mkExplicitDbEntry p.tables) := by
    simp only [allDatabases, hp]
    rw [if_pos hl]
  have hlen : (l.map (mkExplicitDbEntry p.tables)).length = l.length := List.length_map l _
  have h0 : ¬((l.map (mkExplicitDbEntry p.tables)).length = 0) := by
    rw [hlen]
    omega
  have hFD : filteredDatabases (allDatabases p) "all" = l.map (mkExplicitDbEntry p.tables) := by
    rw [hAD]
    simp [filteredDatabases, h0]
  refine ⟨?_, ?_, mem_databasesWithCorrectCounts _ _ _ he⟩
  · rw [hFD]
    simp [namesOf, payloadNamesOf, List.map_map, mkExplicitDbEntry, Function.comp]
  · rw [hFD, hlen]

/-- The entry actually shown by the database selector for the payload above:
`databasesWithCorrectCounts` replaces the tableCount 5 by the live count 0. -/
def dbCorrected : DbEntry :=
  { id := 1, name := "D", workspace_id := 1, workspace_name := "W"
    tableCount := 0, hasTables := false }

/-- C3 witness: the amended statement evaluated on the concrete payload. -/
theorem c3_witness :
    namesOf (filteredDatabases (allDatabases payloadExplicitCount) "all") =
      payloadNamesOf [explicitDbRecord] ∧
    (filteredDatabases (allDatabases payloadExplicitCount) "all").length =
      [explicitDbRecord].length ∧
    dbCorrected.tableCount = (countTablesForDb payloadExplicitCount.tables dbCorrected.id : Int) :=
  c3_explicit_databases_names_and_counts payloadExplicitCount [explicitDbRecord] dbCorrected
    rfl (by decide) (by decide)

/-- A payload lacking an explicit databases list whose only table carries the
falsy `database_id` 0. -/
def payloadZeroDbId : ERDData :=
  { tables := [{ id := 1, name := "T", database_id := 0, database_name := "D0"
                 workspace_id := 1, workspace_name := "W", fields := [] }]
    relationships := [], databases := none, workspaces := none }

/-- C5 counterexample: with `database_id = 0` occurring in the tables, the
derived database collection is empty although one distinct `database_id`
value occurs — the derived cardinality differs from the number of distinct
`database_id` values. -/
theorem c5_counterexample :
    (allDatabases payloadZeroDbId).length = 0 ∧
    (distinctVals (dbIdsOf payloadZeroDbId.tables)).length = 1 ∧
    (allDatabases payloadZeroDbId).length ≠ (distinctVals (dbIdsOf payloadZeroDbId.tables)).length :=
  ⟨by decide, by decide, by decide⟩

/-- C5 (amended): for a payload lacking an explicit databases list, the
derived database collection has cardinality equal to the number of distinct
database ids among the tables whose `database_id` is truthy (non-zero);
tables with a falsy `database_id` are skipped by the derivation. -/
theorem c5_derived_database_cardinality (p : ERDData) (hp : p.databases = none) :
    (allDatabases p).length = (distinctVals (dbIdsOf (truthyDbTables p.tables))).length := by
  have hAD : allDatabases p = dbFromTables p := by
    simp [allDatabases, hp]
  rw [hAD]
  unfold dbFromTables
  by_cases he : p.tables.isEmpty
  · rw [if_pos he]
    have hnil : p.tables = [] := List.isEmpty_iff.mp he
    rw [hnil]
    rfl
  · rw [if_neg he, length_sortByKey, List.length_map]
    exact congrArg List.length (foldl_insertUnique_dbIds p.tables [])

/-- A payload that derives its databases and workspaces from the tables. -/
def payloadDerived : ERDData :=
  { tables := [tblUsers, tblOrders], relationships := [relDemo]
    databases := none, workspaces := none }

/-- C5 witness: the amended cardinality statement on a concrete payload. -/
theorem c5_witness :
    (allDatabases payloadDerived).length =
      (distinctVals (dbIdsOf (truthyDbTables payloadDerived.tables))).length :=
  c5_derived_database_cardinality payloadDerived rfl

/-- C6: each derived database entry of the page component takes its name
(with the `Database {id}` default) and its workspace reference from the
first table encountered with that database id; each derived workspace entry
of the page component takes its name (with the `Workspace {id}` default)
from the first table with that workspace id; and each workspace entry
derived by the diagram component takes its name from the last table with
that workspace id — so every derivation is first-seen (with default) or
last-seen, as the claim requires. -/
theorem c6_derived_entities_first_or_last (p : ERDData) (d : DbEntry) (we : WsEntry)
    (tables2 : List Table) (w : DiagWs)
    (hp : p.databases = none) (hd : d ∈ allDatabases p)
    (hwp : p.workspaces = none) (hwe : we ∈ allWorkspaces p)
    (hw : w ∈ diagramWorkspaces tables2) :
    (d.name = firstDbName p.tables d.id ∧
      d.workspace_id = firstDbWorkspaceId p.tables d.id) ∧
    we.name = firstWsName p.tables we.id ∧
    w.name = lastWsName tables2 w.id := by
  have hAD : allDatabases p = dbFromTables p := by
    simp [allDatabases, hp]
  have hAW : allWorkspaces p = wsFromTables p := by
    simp [allWorkspaces, hwp]
  rw [hAD] at hd
  rw [hAW] at hwe
  refine ⟨?_, ?_, ?_⟩
  · unfold dbFromTables at hd
    by_cases he : p.tables.isEmpty
    · rw [if_pos he] at hd
      cases hd
    · rw [if_neg he, mem_sortByKey] at hd
      rcases List.mem_map.mp hd with ⟨dbId, hmem, hdeq⟩
      subst hdeq
      rw [mkDbEntry_id, mkDbEntry_name, mkDbEntry_workspace]
      exact ⟨rfl, rfl⟩
  · unfold wsFromTables at hwe
    by_cases he : p.tables.isEmpty
    · rw [if_pos he] at hwe
      cases hwe
    · rw [if_neg he, mem_sortByKey] at hwe
      rcases List.mem_map.mp hwe with ⟨wsId, hmem, hweq⟩
      subst hweq
      rw [mkWsEntry_id, mkWsEntry_name]
  · rw [diagramWorkspaces, mem_sortByKey] at hw
    rcases mem_foldl_upsertWs tables2 w hw with ⟨t, hf, hid, hname⟩
    rw [hname]
    unfold lastWsName
    rw [hf]

/-- The workspace entry derived from `payloadDerived` by the page
component. -/
def wsDemo : WsEntry :=
  { id := 100, name := "WS", databaseCount := 1, tableCount := 2 }

/-- The workspace option derived from the demo tables by the diagram
component. -/
def diagWsDemo : DiagWs :=
  { id := 100, name := "WS" }

/-- C6 witness: the derivation sources evaluated on the concrete payload. -/
theorem c6_witness :
    (dbDemo.name = firstDbName payloadDerived.tables dbDemo.id ∧
      dbDemo.workspace_id = firstDbWorkspaceId payloadDerived.tables dbDemo.id) ∧
    wsDemo.name = firstWsName payloadDerived.tables wsDemo.id ∧
    diagWsDemo.name = lastWsName [tblUsers, tblOrders] diagWsDemo.id :=
  c6_derived_entities_first_or_last payloadDerived dbDemo wsDemo [tblUsers, tblOrders] diagWsDemo
    rfl (by decide) rfl (by decide) (by decide)

/-- C7 counterexample: the per-application ERD page's edge derivation gives
the first edge the identity `e-0`, not `e0` — so edge identity is not the
string `e` immediately followed by the index for that derivation. -/
theorem c7_counterexample :
    (flowEdges [relDemo] [tblUsers, tblOrders]).map EdgeOut.id = ["e-0"] ∧
    ("e-0" : String) ≠ "e0" :=
  ⟨by decide, by decide⟩

/-- C7 (amended): every graph derivation emits one edge per (kept)
relationship, labeled with the relationship's field name and directed from
the source table id to the target table id, with identity determined by the
position in derivation order — `e{index}` in the diagram components and
`e-{index}` in the per-application ERD page. -/
theorem c7_edge_construction (rels appRels : List Rel) (appTables : List Table) (i j : Nat) :
    (initialEdges rels).length = rels.length ∧
    (initialEdges rels).get? i =
      (rels.get? i).map (fun r =>
        { id := "e" ++ toString i, source := toString r.source_table_id
          target := toString r.target_table_id, label := r.field_name }) ∧
    (flowEdges appRels appTables).get? j =
      ((flowEdgesKept appRels appTables).get? j).map (fun r =>
        { id := "e-" ++ toString j, source := toString r.source_table_id
          target := toString r.target_table_id, label := r.field_name }) := by
  refine ⟨length_mapWithIndex _ _ _, ?_, ?_⟩
  · unfold initialEdges
    rw [get?_mapWithIndex]
    simp
  · unfold flowEdges
    rw [get?_mapWithIndex]
    simp

/-- C8: graph derivation marks a field of a node as a primary-key indicator
exactly when the field's lower-cased name contains the substring `id` and
equals, case-insensitively, the table's name followed by `_id`. -/
theorem c8_primary_key_heuristic (tables : List Table) (node : NodeOut) (nf : NodeField)
    (hn : node ∈ initialNodes tables) (hf : nf ∈ node.fields) :
    nf.isPrimary = true ↔
      (strContains (lowerStr nf.name) "id" = true ∧
        lowerStr nf.name = lowerStr node.label ++ "_id") := by
  rcases mem_mapWithIndex _ _ _ _ hn with ⟨n, t, ht, hnode⟩
  subst hnode
  rcases List.mem_map.mp hf with ⟨f, hfmem, hfeq⟩
  subst hfeq
  simp [mkNodeField, mkNode, Bool.and_eq_true]

/-- C8 witness: the heuristic evaluated on the `users_id` field of the
`Users` table. -/
theorem c8_witness :
    (mkNodeField "Users" usersIdField).isPrimary = true ↔
      (strContains (lowerStr (mkNodeField "Users" usersIdField).name) "id" = true ∧
        lowerStr (mkNodeField "Users" usersIdField).name =
          lowerStr (mkNode 0 tblUsers).label ++ "_id") :=
  c8_primary_key_heuristic [tblUsers] (mkNode 0 tblUsers) (mkNodeField "Users" usersIdField)
    (by decide) (by decide)

/-- C9: for a normalized payload (every table resolves to a known database
consistently) and a workspace selection matching no database, both filter
derivations return the empty list, and graph derivation of an empty table
and relationship set returns empty nodes and edges; all four are total
functions, so no error is possible. -/
theorem c9_empty_selection_safe (p : ERDData) (selW selD : String)
    (h0 : selW ≠ "all")
    (h1 : ∀ db ∈ allDatabases p, numEq selW db.workspace_id = false)
    (h2 : ∀ t ∈ p.tables, ∃ db ∈ allDatabases p,
      db.id = t.database_id ∧ db.workspace_id = t.workspace_id) :
    filteredDatabases (allDatabases p) selW = [] ∧
    filteredTables p.tables selW selD = [] ∧
    initialNodes ([] : List Table) = [] ∧
    initialEdges ([] : List Rel) = [] := by
  have htbl : ∀ t ∈ p.tables, numEq selW t.workspace_id = false := by
    intro t ht
    rcases h2 t ht with ⟨db, hdb, _, hws⟩
    rw [← hws]
    exact h1 db hdb
  have hf1 : p.tables.filter (fun t => numEq selW t.workspace_id) = [] :=
    List.filter_eq_nil_iff.mpr (fun t ht => by simp [htbl t ht])
  refine ⟨?_, ?_, rfl, rfl⟩
  · unfold filteredDatabases
    by_cases hz : (allDatabases p).length = 0
    · rw [if_pos hz]
    · rw [if_neg hz, if_neg h0]
      exact List.filter_eq_nil_iff.mpr (fun db hdb => by simp [h1 db hdb])
  · unfold filteredTables
    simp [h0, hf1]

/-- C9 witness: the empty-result statement evaluated on the concrete derived
payload with the unmatched workspace selection `999`. -/
theorem c9_witness :
    filteredDatabases (allDatabases payloadDerived) "999" = [] ∧
    filteredTables payloadDerived.tables "999" "all" = [] ∧
    initialNodes ([] : List Table) = [] ∧
    initialEdges ([] : List Rel) = [] :=
  c9_empty_selection_safe payloadDerived "999" "all" (by decide) (by decide) (by decide)

/-- A user-interface event step on the filter state: a workspace change is
always possible; a database change can only be delivered while the database
selector is enabled (not disabled). -/
inductive UiStep : FilterState → FilterState → Prop where
  | workspaceChange (s : FilterState) (w : String) : UiStep s (handleWorkspaceChange s w)
  | databaseChange (s : FilterState) (d : String) (h : dbSelectorDisabled s = false) :
      UiStep s (handleDatabaseChange s d)

/-- The filter states reachable from the initial state by UI events. -/
inductive ReachableUi : FilterState → Prop where
  | start : ReachableUi initialFilterState
  | step (s s2 : FilterState) (hr : ReachableUi s) (hs : UiStep s s2) : ReachableUi s2

/-- C10: in every reachable UI state, if the workspace selection is `all`
(which disables the database selector) then the database selection is `all`;
a specific database can only be selected while a specific workspace is
selected. -/
theorem c10_database_selection_guarded (s : FilterState) (hr : ReachableUi s)
    (h : s.selectedWorkspace = "all") : s.selectedDatabase = "all" := by
  induction hr with
  | start => rfl
  | step s1 s2 hr1 hs ih =>
    cases hs with
    | workspaceChange w => rfl
    | databaseChange d hdis =>
      exfalso
      have hws : s1.selectedWorkspace = "all" := h
      unfold dbSelectorDisabled at hdis
      rw [hws] at hdis
      simp at hdis

/-- C10 witness: the invariant evaluated at the initial state. -/
theorem c10_witness : initialFilterState.selectedDatabase = "all" :=
  c10_database_selection_guarded initialFilterState ReachableUi.start rfl
